import Mathlib

/-!
Shallow embedding of the dotme repository's reconciliation engine and
persistent link-state store, together with proofs settling the frozen
claims about them.

The Rust sources embedded here are `src/symlinks.rs` (the `SymlinkState`
store, `verify_symlink`, `verify_all`, `cleanup_broken_symlinks`,
`create_symlink`, `remove_symlink`, `normalize_path`) and
`src/dotfiles.rs` (the recursive walk `process_directory_for_symlinks`,
`create_symlink_if_needed`, `create_symlinks_for_entry`,
`remove_symlinks_for_entry`, and the `add` command flow).

Conventions of the embedding:

* A filesystem path (`std::path::PathBuf`) is an `RPath`: an absoluteness
  flag plus the list of components.  Rust's component-wise
  `Path::starts_with` becomes list-prefix on components with matching
  absoluteness, and `normalize_path` (join onto the current directory when
  relative) becomes `normalize_path` below.
* Timestamps (`chrono::Utc::now().to_rfc3339()`) are abstracted as a `Nat`
  parameter `now`; the code only ever stores the current instant.
* The filesystem is a `Disk`: what entry sits at each path (nothing, a
  regular file, a real directory, or a symlink), the directory listings
  `read_dir` returns, and two failure oracles for the two fallible
  syscalls the walk performs (`read_dir` and symlink creation).  A symlink
  entry carries what the OS would answer for the link-following queries
  `exists()` and `is_dir()` on that path, since resolution happens inside
  the kernel; `symlink_metadata()` succeeds on any present entry,
  including broken symlinks, exactly as in the Rust code.
* Fallible Rust functions (`Result<T>`) return an error component
  (`Option`/`Except` of an error type) alongside their effects; the
  distinct `anyhow::bail!` sites become distinct error constructors.
* The recursive directory walk is defined with explicit fuel
  (`walk fuel …`), returning `none` when the fuel runs out; genuine
  non-termination of the Rust recursion shows up as `none` for every
  fuel, and genuine termination as some fuel returning `some`.
-/

namespace Dotme

/-- A filesystem path: whether it is absolute, and its components.
Models `std::path::PathBuf`. -/
structure RPath where
  absolute : Bool
  comps : List String
deriving DecidableEq, Repr

/-- `p.child c` is `p.join(c)` for a single well-formed component `c`. -/
def RPath.child (p : RPath) (c : String) : RPath :=
  ⟨p.absolute, p.comps ++ [c]⟩

/-- Rust `Path::starts_with`: component-wise prefix test (the root marker
must match, hence equal absoluteness). -/
def RPath.startsWith (p q : RPath) : Bool :=
  p.absolute == q.absolute && q.comps.isPrefixOf p.comps

/-- `normalize_path` from `src/symlinks.rs`: an absolute path is returned
as is, a relative one is joined onto the current working directory
`cwd` (itself absolute, so the result is the component list of an
absolute path). -/
def normalize_path (cwd : List String) (p : RPath) : List String :=
  if p.absolute then p.comps else cwd ++ p.comps

/-- One row of the persisted symlink ledger (`SymlinkEntry` in
`src/symlinks.rs`). -/
structure SymlinkEntry where
  link : RPath
  target : RPath
  created_at : Nat
  last_verified : Option Nat
deriving DecidableEq, Repr

/-- The persisted store (`SymlinkState` in `src/symlinks.rs`): the ordered
list of managed symlink records. -/
structure SymlinkState where
  symlinks : List SymlinkEntry
deriving DecidableEq, Repr

/-- Helper for `SymlinkState.add_entry`: Rust's
`iter_mut().find(|e| e.link == link)` updates the first record with this
link (new target, `last_verified = now`, `created_at` untouched); when no
record matches, a fresh record with `created_at = last_verified = now` is
pushed at the end. -/
def addEntryGo (link target : RPath) (now : Nat) :
    List SymlinkEntry → List SymlinkEntry
  | [] => [⟨link, target, now, some now⟩]
  | e :: es =>
    if e.link = link then
      { e with target := target, last_verified := some now } :: es
    else
      e :: addEntryGo link target now es

/-- `SymlinkState::add_entry` from `src/symlinks.rs`. -/
def SymlinkState.add_entry (s : SymlinkState) (link target : RPath)
    (now : Nat) : SymlinkState :=
  ⟨addEntryGo link target now s.symlinks⟩

/-- `SymlinkState::remove_entry` from `src/symlinks.rs`: retain every
record whose `link` differs; report whether anything was dropped. -/
def SymlinkState.remove_entry (s : SymlinkState) (link : RPath) :
    SymlinkState × Bool :=
  let kept := s.symlinks.filter (fun e => decide (e.link ≠ link))
  (⟨kept⟩, decide (s.symlinks.length ≠ kept.length))

/-- What sits at one path of the model filesystem.  A `symlinkTo`
constructor records the link's stored destination together with the two
link-following answers the OS would give at this path: `rExists` for
`Path::exists()` and `rIsDir` for `Path::is_dir()` (false for a broken
symlink). -/
inductive DiskEntry
  | absent
  | file
  | dir
  | symlinkTo (t : RPath) (rExists : Bool) (rIsDir : Bool)
deriving DecidableEq, Repr

/-- The model filesystem: the entry at each path, the listing `read_dir`
yields for a directory, and failure oracles for `read_dir` (permission
errors) and symlink creation (I/O errors), the two syscalls the walk can
fail on besides the checks modelled through `DiskEntry`. -/
structure Disk where
  entry : RPath → DiskEntry
  children : RPath → List String
  readDirFails : RPath → Bool
  symlinkFails : RPath → Bool

/-- `path.symlink_metadata().is_ok()`: true for any present entry,
including broken symlinks. -/
def Disk.metaOk (d : Disk) (p : RPath) : Bool :=
  match d.entry p with
  | .absent => false
  | _ => true

/-- `path.exists()`: follows symlinks, hence false on a broken one. -/
def Disk.pathExists (d : Disk) (p : RPath) : Bool :=
  match d.entry p with
  | .absent => false
  | .file => true
  | .dir => true
  | .symlinkTo _ e _ => e

/-- `path.is_dir()`: follows symlinks, so a symlink resolving to a
directory answers true. -/
def Disk.isDir (d : Disk) (p : RPath) : Bool :=
  match d.entry p with
  | .dir => true
  | .symlinkTo _ _ i => i
  | _ => false

/-- `metadata.is_symlink()` on the `symlink_metadata` of `p`. -/
def Disk.isSymlink (d : Disk) (p : RPath) : Bool :=
  match d.entry p with
  | .symlinkTo _ _ _ => true
  | _ => false

/-- Whether `fs::read_dir(p)` errors: the path does not resolve to a
directory, or the failure oracle fires (permissions). -/
def readDirErr (d : Disk) (p : RPath) : Bool :=
  !(d.isDir p) || d.readDirFails p

/-- Replace the entry at one path (the effect of creating a symlink
there). -/
def Disk.setEntry (d : Disk) (p : RPath) (e : DiskEntry) : Disk :=
  { d with entry := fun q => if q = p then e else d.entry q }

/-- The two failure cases of `SymlinkState::verify_symlink`:
"Symlink does not exist" and "Path exists but is not a symlink". -/
inductive VerifyErr
  | missing
  | notALink
deriving DecidableEq, Repr

/-- `SymlinkState::verify_symlink` from `src/symlinks.rs`: absent path is
the Missing error; a present non-symlink is the NotALink error; a symlink
(broken or not) yields `Ok` of whether its stored destination and the
expected target normalize to the same path. -/
def verify_symlink (cwd : List String) (d : Disk) (link expected : RPath) :
    Except VerifyErr Bool :=
  match d.entry link with
  | .absent => .error .missing
  | .file => .error .notALink
  | .dir => .error .notALink
  | .symlinkTo t _ _ =>
    .ok (decide (normalize_path cwd t = normalize_path cwd expected))

deriving instance DecidableEq for Except

/-- `status.is_ok()` on a verification result. -/
def exceptOk : Except VerifyErr Bool → Bool
  | .ok _ => true
  | .error _ => false

/-- A verification status counts as broken exactly when it is the Missing
or the NotALink error (`status.is_err()` in `cleanup_broken_symlinks`). -/
def isBrokenStatus : Except VerifyErr Bool → Bool
  | .error .missing => true
  | .error .notALink => true
  | .ok _ => false

/-- Loop body of `SymlinkState::verify_all`: verify each record in order,
stamp `last_verified = now` on those whose status `is_ok()`, and collect
one `(link, status)` pair per record. -/
def verifyAllGo (cwd : List String) (d : Disk) (now : Nat) :
    List SymlinkEntry →
      List SymlinkEntry × List (RPath × Except VerifyErr Bool)
  | [] => ([], [])
  | e :: es =>
    let status := verify_symlink cwd d e.link e.target
    let e' := if exceptOk status then { e with last_verified := some now }
              else e
    let r := verifyAllGo cwd d now es
    (e' :: r.1, (e.link, status) :: r.2)

/-- `SymlinkState::verify_all` from `src/symlinks.rs`. -/
def SymlinkState.verify_all (s : SymlinkState) (cwd : List String)
    (d : Disk) (now : Nat) :
    SymlinkState × List (RPath × Except VerifyErr Bool) :=
  let r := verifyAllGo cwd d now s.symlinks
  (⟨r.1⟩, r.2)

/-- `cleanup_broken_symlinks` from `src/symlinks.rs`: collect the links of
every record whose verification errs, remove each collected link from the
store, and return the new store with the number of records dropped. -/
def cleanup_broken_symlinks (cwd : List String) (d : Disk)
    (s : SymlinkState) : SymlinkState × Nat :=
  let toRemove :=
    (s.symlinks.filter
      (fun e => isBrokenStatus (verify_symlink cwd d e.link e.target))).map
      (fun e => e.link)
  let s' := toRemove.foldl (fun st l => (st.remove_entry l).1) s
  (s', s.symlinks.length - s'.symlinks.length)

/-- The error of `remove_symlink`: "Path exists but is not a symlink". -/
inductive RemoveErr
  | notASymlink
deriving DecidableEq, Repr

/-- One remembered filesystem mutation. -/
inductive FsOp
  | removedFile (p : RPath)
  | createdDirAll (p : RPath)
  | createdSymlink (link target : RPath)
  | clonedRepo (url : String) (dest : RPath)
  | wroteConfig
deriving DecidableEq, Repr

/-- `remove_symlink` from `src/symlinks.rs`, acting on disk `d` and the
persisted store `s`.  When the path is present but not a symlink the
function bails before touching anything, so the error case returns disk
effects `[]` and the store unchanged; when the path is a symlink it is
unlinked and the store entry dropped; when the path is absent entirely
the function warns, still drops the store entry, and succeeds. -/
def remove_symlink (d : Disk) (s : SymlinkState) (link : RPath) :
    Option RemoveErr × List FsOp × SymlinkState :=
  if d.metaOk link then
    if d.isSymlink link then
      (none, [.removedFile link], (s.remove_entry link).1)
    else
      (some .notASymlink, [], s)
  else
    (none, [], (s.remove_entry link).1)

/-- One decision reported by the walk.  Real and dry runs record the same
constructors; only effects differ.  `create` is logged before the actual
creation is attempted, mirroring the log line / dry-run print preceding
the syscall. -/
inductive Decision
  | create (link target : RPath)
  | skip (link : RPath)
  | skipMissingSource (link target : RPath)
deriving DecidableEq, Repr

/-- Errors the walk can propagate, one per distinct `bail!`/`?` failure
site reachable from it. -/
inductive WErr
  | targetMissing
  | wrongTarget
  | notASymlink
  | ioFailure
  | readDirFailed
deriving DecidableEq, Repr

/-- The state threaded through the walk: the filesystem, the persisted
symlink store, the decisions reported so far, and the filesystem
mutations performed so far. -/
structure WalkSt where
  disk : Disk
  store : SymlinkState
  log : List Decision
  fx : List FsOp

/-- Parent-directory-creation step of `create_symlink`
(`fs::create_dir_all` when `link.parent()` exists as a path and is
missing on disk), recorded as an effect. -/
def parentFxOf (d : Disk) (link : RPath) : List FsOp :=
  match link.comps with
  | [] => []
  | _ :: _ =>
    let par : RPath := ⟨link.absolute, link.comps.dropLast⟩
    if d.pathExists par then [] else [.createdDirAll par]

/-- The function `create_symlink` from `src/symlinks.rs` as invoked by
the walk: bail when the target does not exist; an existing symlink at
`link` is accepted (store upserted) when it already points at the
target, rejected otherwise; an existing non-symlink is rejected;
otherwise parent directories are created when missing (`parentFxOf`),
the symlink is created (the entry at `link` becomes a symlink whose
link-following answers are those of the target right now), and the store
is upserted.  The walk never queries a created link's parent afterwards,
so the parent's disk entry is left as is. -/
def create_symlink (now : Nat) (cwd : List String) (st : WalkSt)
    (link target : RPath) : Option WErr × WalkSt :=
  if !(st.disk.pathExists target) then (some .targetMissing, st)
  else
    match st.disk.entry link with
    | .symlinkTo t _ _ =>
      if normalize_path cwd t = normalize_path cwd target then
        (none, { st with store := st.store.add_entry link target now })
      else (some .wrongTarget, st)
    | .file => (some .notASymlink, st)
    | .dir => (some .notASymlink, st)
    | .absent =>
      if st.disk.symlinkFails link then
        (some .ioFailure, { st with fx := st.fx ++ parentFxOf st.disk link })
      else
        (none,
         { st with
             disk := st.disk.setEntry link
               (.symlinkTo target (st.disk.pathExists target)
                 (st.disk.isDir target)),
             store := st.store.add_entry link target now,
             fx := st.fx ++ parentFxOf st.disk link ++
               [.createdSymlink link target] })

/-- `create_symlink_if_needed` from `src/dotfiles.rs`: an occupied link
path (any present entry, broken symlinks included) is skipped; a missing
source is warned about and skipped; otherwise the creation is reported
and, in a real run, performed through `create_symlink`. -/
def create_symlink_if_needed (now : Nat) (cwd : List String) (dry : Bool)
    (st : WalkSt) (link target : RPath) : Option WErr × WalkSt :=
  if st.disk.pathExists link || st.disk.metaOk link then
    (none, { st with log := st.log ++ [.skip link] })
  else if !(st.disk.pathExists target) then
    (none, { st with log := st.log ++ [.skipMissingSource link target] })
  else
    let st1 := { st with log := st.log ++ [.create link target] }
    if dry then (none, st1)
    else create_symlink now cwd st1 link target

/-- A frame of the recursive walk: process one directory pair, or the
remaining children of one. -/
inductive Task
  | dir (src tgt : RPath)
  | kids (names : List String) (src tgt : RPath)

/-- `process_directory_for_symlinks` from `src/dotfiles.rs`, with its
sibling loop, as a fueled recursion (the Rust recursion is unbounded;
`none` means the fuel ran out).  A `.dir` task: missing source is warned
and skipped; an occupied target that resolves to a directory (`is_dir`
follows symlinks) is descended into via `read_dir` on the source; any
other occupied target is skipped; an absent target receives one symlink
to the whole source directory.  A `.kids` task processes the listed
children in order, skipping the name `.git`, recursing on directory
children, linking file children, and propagating the first child error
to the caller, exactly as the `?` operators do. -/
def walk (now : Nat) (cwd : List String) (dry : Bool) :
    Nat → Task → WalkSt → Option (Option WErr × WalkSt)
  | 0, _, _ => none
  | _ + 1, .kids [] _ _, st => some (none, st)
  | fuel + 1, .kids (c :: cs) src tgt, st =>
    if c = ".git" then walk now cwd dry fuel (.kids cs src tgt) st
    else
      match (if st.disk.isDir (src.child c) then
               walk now cwd dry fuel (.dir (src.child c) (tgt.child c)) st
             else
               some (create_symlink_if_needed now cwd dry st (tgt.child c)
                 (src.child c))) with
      | none => none
      | some (some e, st2) => some (some e, st2)
      | some (none, st2) => walk now cwd dry fuel (.kids cs src tgt) st2
  | fuel + 1, .dir src tgt, st =>
    if !(st.disk.pathExists src) then
      some (none, { st with log := st.log ++ [.skipMissingSource tgt src] })
    else if st.disk.metaOk tgt then
      if st.disk.isDir tgt then
        if readDirErr st.disk src then some (some .readDirFailed, st)
        else walk now cwd dry fuel (.kids (st.disk.children src) src tgt) st
      else
        some (none, { st with log := st.log ++ [.skip tgt] })
    else
      let st1 := { st with log := st.log ++ [.create tgt src] }
      if dry then some (none, st1)
      else some (create_symlink now cwd st1 tgt src)

/-- The handling of one non-`.git` child inside the sibling loop: recurse
for a directory child, link a file child. -/
def childStep (now : Nat) (cwd : List String) (dry : Bool) (fuel : Nat)
    (st : WalkSt) (src tgt : RPath) (c : String) :
    Option (Option WErr × WalkSt) :=
  if st.disk.isDir (src.child c) then
    walk now cwd dry fuel (.dir (src.child c) (tgt.child c)) st
  else
    some (create_symlink_if_needed now cwd dry st (tgt.child c)
      (src.child c))

theorem walk_kids_cons (now : Nat) (cwd : List String) (dry : Bool)
    (fuel : Nat) (st : WalkSt) (c : String) (cs : List String)
    (src tgt : RPath) :
    walk now cwd dry (fuel + 1) (.kids (c :: cs) src tgt) st =
      if c = ".git" then walk now cwd dry fuel (.kids cs src tgt) st
      else
        match childStep now cwd dry fuel st src tgt c with
        | none => none
        | some (some e, st2) => some (some e, st2)
        | some (none, st2) => walk now cwd dry fuel (.kids cs src tgt) st2
    := rfl

/-- The source kinds of a managed entry (`SourceType` in
`src/config.rs`). -/
inductive SourceType
  | file
  | directory
  | git
deriving DecidableEq, Repr

/-- A managed entry (`DotfileEntry` in `src/config.rs`).  `source` is the
configured string; `sourcePath` is `Path::new(&entry.source)`, its parse
as a path, carried alongside since the embedding separates strings from
paths. -/
structure DotfileEntry where
  source : String
  sourcePath : RPath
  target : RPath
  ty : SourceType
  path : Option RPath
  folders : Option (List String)
deriving DecidableEq, Repr

/-- Walking the selected folders of a git entry
(`create_symlinks_for_entry`, `SourceType::Git` arm with folders): a
missing folder is warned about and skipped; otherwise the folder's
contents are walked into the base path, errors propagating. -/
def process_git_folders (now : Nat) (cwd : List String) (dry : Bool)
    (fuel : Nat) : WalkSt → List String → RPath → RPath →
    Option (Option WErr × WalkSt)
  | st, [], _, _ => some (none, st)
  | st, f :: fl, repo, base =>
    let srcF := repo.child f
    if !(st.disk.pathExists srcF) then
      process_git_folders now cwd dry fuel st fl repo base
    else if readDirErr st.disk srcF then some (some .readDirFailed, st)
    else
      match walk now cwd dry fuel (.kids (st.disk.children srcF) srcF base)
          st with
      | none => none
      | some (some e, st2) => some (some e, st2)
      | some (none, st2) => process_git_folders now cwd dry fuel st2 fl
          repo base

/-- `create_symlinks_for_entry` from `src/dotfiles.rs`.  A file entry
links `base/filename` to the source.  A directory entry links the
*contents* of the source into the base path (the same sibling loop as
the recursive walk, on the source's children).  A git entry does the
same for each selected folder's contents, or for the clone root's
contents when no folders are selected. -/
def create_symlinks_for_entry (now : Nat) (cwd : List String) (dry : Bool)
    (fuel : Nat) (st : WalkSt) (entry : DotfileEntry) (base : RPath) :
    Option (Option WErr × WalkSt) :=
  match entry.ty with
  | .file =>
    match entry.sourcePath.comps.getLast? with
    | none => some (some .ioFailure, st)
    | some fn =>
      some (create_symlink_if_needed now cwd dry st (base.child fn)
        entry.sourcePath)
  | .directory =>
    if readDirErr st.disk entry.sourcePath then
      some (some .readDirFailed, st)
    else
      walk now cwd dry fuel
        (.kids (st.disk.children entry.sourcePath) entry.sourcePath base) st
  | .git =>
    match entry.folders with
    | some fl => process_git_folders now cwd dry fuel st fl entry.target base
    | none =>
      if readDirErr st.disk entry.target then
        some (some .readDirFailed, st)
      else
        walk now cwd dry fuel
          (.kids (st.disk.children entry.target) entry.target base) st

/-- The root path `remove_symlinks_for_entry` matches link targets
against: the source path for File and Directory entries, the clone
target for Git entries. -/
def rootPathOf (e : DotfileEntry) : RPath :=
  match e.ty with
  | .file => e.sourcePath
  | .directory => e.sourcePath
  | .git => e.target

/-- Whether `remove_symlink` would succeed at this link path: the path is
absent, or it is a symlink. -/
def canRemove (d : Disk) (l : RPath) : Bool :=
  !(d.metaOk l) || d.isSymlink l

/-- The removal loop of `remove_symlinks_for_entry`: each matched link is
removed through `remove_symlink`; a failure is logged and the loop
continues (the store coming back from the failed call is unchanged);
successes are counted. -/
def removeLoop (d : Disk) : SymlinkState → List RPath →
    Nat × SymlinkState × List FsOp
  | s, [] => (0, s, [])
  | s, l :: ls =>
    match remove_symlink d s l with
    | (some _, _, s') => removeLoop d s' ls
    | (none, fx, s') =>
      let r := removeLoop d s' ls
      (r.1 + 1, r.2.1, fx ++ r.2.2)

/-- `remove_symlinks_for_entry` from `src/dotfiles.rs`: on an empty store
nothing happens; otherwise every record whose target starts with the
entry's root path is selected, and (in a real run) each selected link is
removed via `remove_symlink`, failures logged and skipped; a dry run
only counts the selected links. -/
def remove_symlinks_for_entry (d : Disk) (s : SymlinkState)
    (e : DotfileEntry) (dry : Bool) : Nat × SymlinkState × List FsOp :=
  if s.symlinks.isEmpty then (0, s, [])
  else
    let root := rootPathOf e
    let toRemove :=
      (s.symlinks.filter (fun se => se.target.startsWith root)).map
        (fun se => se.link)
    if dry then (toRemove.length, s, [])
    else removeLoop d s toRemove

/-- The managed-entries configuration (`Config` in `src/config.rs`),
reduced to the fields `add` touches. -/
structure Config where
  updated : Option Nat
  dotfiles : List DotfileEntry
deriving DecidableEq, Repr

/-- Errors of the `add` command flow. -/
inductive AddErr
  | duplicateSource
  | filenameMissing
  | walkFailed (e : WErr)
deriving DecidableEq, Repr

/-- The `add` command from `src/dotfiles.rs` (initialization check,
source-type detection and git-URL repo-name extraction abstracted as the
inputs `sourceTy` and `repoName`; the interactive folder-selection
collaborator abstracted as `promptResult`; the git clone modelled as
succeeding).  The base path defaults to the current directory; the
target defaults to `gitDir/repoName` for git sources and
`base/filename` otherwise; a duplicate source bails; a git source is
cloned — regardless of `dry`; folder selection is skipped (forced to
whole-repository) when a custom path was given; the new entry is pushed
and the config saved — regardless of `dry`; finally the walk runs with
`dry` passed through. -/
def add (now : Nat) (cwd : List String) (cwdPath gitDir : RPath)
    (repoName : String) (promptResult : Option (List String))
    (st : WalkSt) (cfg : Config)
    (source : String) (sourcePath : RPath) (sourceTy : SourceType)
    (targetOpt pathOpt : Option RPath) (folders : Option (List String))
    (dry : Bool) (fuel : Nat) : Option (Option AddErr × WalkSt × Config) :=
  let base_path := pathOpt.getD cwdPath
  let targetRes : Except AddErr RPath :=
    match targetOpt with
    | some t => .ok t
    | none =>
      match sourceTy with
      | .git => .ok (gitDir.child repoName)
      | _ =>
        match sourcePath.comps.getLast? with
        | some fn => .ok (base_path.child fn)
        | none => .error .filenameMissing
  match targetRes with
  | .error e => some (some e, st, cfg)
  | .ok target =>
    if cfg.dotfiles.any (fun e2 => e2.source == source) then
      some (some .duplicateSource, st, cfg)
    else
      let st1 : WalkSt :=
        match sourceTy with
        | .git => { st with fx := st.fx ++ [.clonedRepo source target] }
        | _ => st
      let selectedFolders : Option (List String) :=
        match sourceTy with
        | .git =>
          if pathOpt.isSome then none
          else if folders.isNone then promptResult
          else folders
        | _ => folders
      let entry : DotfileEntry :=
        ⟨source, sourcePath, target, sourceTy, some base_path,
          selectedFolders⟩
      let cfg' : Config := { cfg with dotfiles := cfg.dotfiles ++ [entry] }
      let st2 : WalkSt := { st1 with fx := st1.fx ++ [.wroteConfig] }
      match create_symlinks_for_entry now cwd dry fuel st2 entry
          base_path with
      | none => none
      | some (e, st3) => some (e.map .walkFailed, st3, cfg')

/-! Helper lemmas about the store operations. -/

theorem addEntryGo_of_not_mem (link target : RPath) (now : Nat) :
    ∀ l : List SymlinkEntry, (∀ e ∈ l, e.link ≠ link) →
      addEntryGo link target now l = l ++ [⟨link, target, now, some now⟩]
  | [], _ => rfl
  | e :: es, h => by
    have he : e.link ≠ link := h e (List.mem_cons_self e es)
    simp only [addEntryGo, if_neg he, List.cons_append, List.cons.injEq,
      true_and]
    exact addEntryGo_of_not_mem link target now es
      (fun e' he' => h e' (List.mem_cons_of_mem e he'))

theorem map_update_of_not_mem (link target : RPath) (now : Nat) :
    ∀ l : List SymlinkEntry, (∀ e ∈ l, e.link ≠ link) →
      l.map (fun e =>
        if e.link = link then
          (⟨link, target, e.created_at, some now⟩ : SymlinkEntry)
        else e) = l
  | [], _ => rfl
  | e :: es, h => by
    have he : e.link ≠ link := h e (List.mem_cons_self e es)
    simp only [List.map_cons, if_neg he, List.cons.injEq, true_and]
    exact map_update_of_not_mem link target now es
      (fun e' he' => h e' (List.mem_cons_of_mem e he'))

theorem addEntryGo_of_mem (link target : RPath) (now : Nat) :
    ∀ l : List SymlinkEntry, (l.map (fun e => e.link)).Nodup →
      (∃ e ∈ l, e.link = link) →
      addEntryGo link target now l = l.map (fun e =>
        if e.link = link then
          (⟨link, target, e.created_at, some now⟩ : SymlinkEntry)
        else e)
  | [], _, hex => by simp at hex
  | e :: es, hnd, hex => by
    rw [List.map_cons, List.nodup_cons] at hnd
    by_cases he : e.link = link
    · have hes : ∀ e' ∈ es, e'.link ≠ link := by
        intro e' he' hlk
        exact hnd.1 (he ▸ hlk ▸ List.mem_map_of_mem (fun x => x.link) he')
      simp only [addEntryGo, if_pos he, List.map_cons, if_pos he]
      rw [map_update_of_not_mem link target now es hes]
      cases e
      simp_all
    · have hex' : ∃ e' ∈ es, e'.link = link := by
        rcases hex with ⟨e', he', hlk⟩
        rcases List.mem_cons.mp he' with h | h
        · exact absurd (h ▸ hlk) he
        · exact ⟨e', h, hlk⟩
      simp only [addEntryGo, if_neg he, List.map_cons, if_neg he,
        List.cons.injEq, true_and]
      exact addEntryGo_of_mem link target now es hnd.2 hex'

theorem foldl_remove_entry (L : List RPath) :
    ∀ s : SymlinkState,
      (L.foldl (fun st l => (st.remove_entry l).1) s).symlinks =
        s.symlinks.filter (fun e => decide (e.link ∉ L)) := by
  induction L with
  | nil => intro s; simp
  | cons l ls ih =>
    intro s
    rw [List.foldl_cons, ih]
    show ((s.remove_entry l).1.symlinks).filter _ = _
    simp only [SymlinkState.remove_entry, List.filter_filter]
    refine List.filter_congr ?_
    intro e _
    by_cases h1 : e.link = l <;> by_cases h2 : e.link ∈ ls <;>
      simp [h1, h2]

/-! Claim C4: cleanup of broken records. -/

/-- C4: for every state store (with the documented invariant that `link`
is a unique key), `cleanup_broken_symlinks` removes exactly those
records whose verification status is the Missing or the NotALink error,
preserves every record whose status is Correct (`Ok true`) or
WrongTarget (`Ok false`) unchanged and in order, and returns the number
of records removed. -/
theorem claim4_cleanup_broken (cwd : List String) (d : Disk)
    (s : SymlinkState) (h : (s.symlinks.map (fun e => e.link)).Nodup) :
    (cleanup_broken_symlinks cwd d s).1.symlinks =
      s.symlinks.filter (fun e =>
        !(isBrokenStatus (verify_symlink cwd d e.link e.target))) ∧
    (cleanup_broken_symlinks cwd d s).2 =
      (s.symlinks.filter (fun e =>
        isBrokenStatus (verify_symlink cwd d e.link e.target))).length := by
  have hmain : (cleanup_broken_symlinks cwd d s).1.symlinks =
      s.symlinks.filter (fun e =>
        !(isBrokenStatus (verify_symlink cwd d e.link e.target))) := by
    show (List.foldl _ s _).symlinks = _
    rw [foldl_remove_entry]
    refine List.filter_congr ?_
    intro e he
    by_cases hb : isBrokenStatus (verify_symlink cwd d e.link e.target)
    · have hmem : e.link ∈
          (s.symlinks.filter (fun x =>
            isBrokenStatus (verify_symlink cwd d x.link x.target))).map
            (fun x => x.link) :=
        List.mem_map_of_mem _ (List.mem_filter.mpr ⟨he, hb⟩)
      simp [hmem, hb]
    · have hmem : e.link ∉
          (s.symlinks.filter (fun x =>
            isBrokenStatus (verify_symlink cwd d x.link x.target))).map
            (fun x => x.link) := by
        intro hmem
        rcases List.mem_map.mp hmem with ⟨e', he', hlk⟩
        have he'2 := List.mem_filter.mp he'
        have heq := List.inj_on_of_nodup_map h he'2.1 he hlk
        rw [heq] at he'2
        exact hb he'2.2
      simp [hmem, hb]
  refine ⟨hmain, ?_⟩
  show s.symlinks.length - (cleanup_broken_symlinks cwd d s).1.symlinks.length
      = _
  rw [hmain]
  have hlen := List.length_eq_length_filter_add
    (l := s.symlinks)
    (fun e => isBrokenStatus (verify_symlink cwd d e.link e.target))
  omega

/-- Disk for the C4 witness: a correct symlink at `/h/a`, a wrong-target
symlink at `/h/b`, nothing at `/h/c`. -/
def d4W : Disk where
  entry := fun p =>
    if p = ⟨true, ["h", "a"]⟩ then .symlinkTo ⟨true, ["r", "a"]⟩ true false
    else if p = ⟨true, ["h", "b"]⟩ then .symlinkTo ⟨true, ["w"]⟩ true false
    else .absent
  children := fun _ => []
  readDirFails := fun _ => false
  symlinkFails := fun _ => false

/-- Store for the C4 witness: one Correct, one WrongTarget, one Missing
record. -/
def s4W : SymlinkState :=
  ⟨[⟨⟨true, ["h", "a"]⟩, ⟨true, ["r", "a"]⟩, 1, none⟩,
    ⟨⟨true, ["h", "b"]⟩, ⟨true, ["r", "b"]⟩, 2, none⟩,
    ⟨⟨true, ["h", "c"]⟩, ⟨true, ["r", "c"]⟩, 3, none⟩]⟩

/-- Witness for C4, instantiating the claim's own example: on a store
with one Correct, one WrongTarget and one Missing record, cleanup
removes exactly the Missing one and returns 1. -/
theorem claim4_witness :
    (cleanup_broken_symlinks [] d4W s4W).1.symlinks =
      [⟨⟨true, ["h", "a"]⟩, ⟨true, ["r", "a"]⟩, 1, none⟩,
       ⟨⟨true, ["h", "b"]⟩, ⟨true, ["r", "b"]⟩, 2, none⟩] ∧
    (cleanup_broken_symlinks [] d4W s4W).2 = 1 := by
  have h := claim4_cleanup_broken [] d4W s4W (by decide)
  exact ⟨h.1.trans (by decide), h.2.trans (by decide)⟩

/-! Claim C5: `verify_all`. -/

/-- C5 (amended): `verify_all` verifies every record in order, removes
none (the record list keeps its length, links, targets and creation
stamps), returns exactly one status per record, and stamps
`last_verified = now` on every record whose verification returns `Ok` —
that is, on Correct *and* on WrongTarget records alike — leaving the
stamp of error records untouched. -/
theorem claim5_verify_all_amended (cwd : List String) (d : Disk)
    (now : Nat) (s : SymlinkState) :
    (s.verify_all cwd d now).1.symlinks =
      s.symlinks.map (fun e =>
        if exceptOk (verify_symlink cwd d e.link e.target) then
          { e with last_verified := some now }
        else e) ∧
    (s.verify_all cwd d now).2 =
      s.symlinks.map (fun e => (e.link, verify_symlink cwd d e.link e.target)) ∧
    (s.verify_all cwd d now).1.symlinks.length = s.symlinks.length := by
  have main : ∀ l : List SymlinkEntry,
      verifyAllGo cwd d now l =
        (l.map (fun e =>
          if exceptOk (verify_symlink cwd d e.link e.target) then
            { e with last_verified := some now }
          else e),
         l.map (fun e => (e.link, verify_symlink cwd d e.link e.target))) := by
    intro l
    induction l with
    | nil => rfl
    | cons e es ih => simp [verifyAllGo, ih]
  refine ⟨?_, ?_, ?_⟩
  · show (verifyAllGo cwd d now s.symlinks).1 = _
    rw [main]
  · show (verifyAllGo cwd d now s.symlinks).2 = _
    rw [main]
  · show (verifyAllGo cwd d now s.symlinks).1.length = _
    rw [main]
    exact List.length_map _ _

/-- Disk for the C5 counterexample: `/h/x` is a symlink pointing at
`/w`, not at the recorded target `/r/x`. -/
def d5W : Disk where
  entry := fun p =>
    if p = ⟨true, ["h", "x"]⟩ then .symlinkTo ⟨true, ["w"]⟩ true false
    else .absent
  children := fun _ => []
  readDirFails := fun _ => false
  symlinkFails := fun _ => false

/-- Counterexample for C5 as stated: a record whose symlink exists but
points at the wrong target gets status WrongTarget (`Ok false`) — and
`verify_all` *does* stamp its `last_verified`, because the code stamps
on `status.is_ok()`, which includes `Ok(false)`. -/
theorem claim5_counterexample :
    (SymlinkState.verify_all
        ⟨[⟨⟨true, ["h", "x"]⟩, ⟨true, ["r", "x"]⟩, 5, none⟩]⟩ [] d5W 9).2 =
      [(⟨true, ["h", "x"]⟩, Except.ok false)] ∧
    (SymlinkState.verify_all
        ⟨[⟨⟨true, ["h", "x"]⟩, ⟨true, ["r", "x"]⟩, 5, none⟩]⟩ [] d5W 9).1.symlinks =
      [⟨⟨true, ["h", "x"]⟩, ⟨true, ["r", "x"]⟩, 5, some 9⟩] := by
  decide

/-! Claim C8: `add_entry` upsert. -/

/-- C8: for every store (under the documented unique-`link` invariant)
and every `(link, target)` pair: when a record keyed by `link` exists,
`add_entry` replaces its target and sets `last_verified` to the current
time while keeping `created_at` and every other record unchanged (and the
order and length of the list); when none exists, it appends a fresh
record whose `created_at` and `last_verified` are both the current time,
leaving all existing records unchanged. -/
theorem claim8_add_entry (s : SymlinkState) (link target : RPath)
    (now : Nat) (h : (s.symlinks.map (fun e => e.link)).Nodup) :
    ((∃ e ∈ s.symlinks, e.link = link) →
      (s.add_entry link target now).symlinks =
        s.symlinks.map (fun e =>
          if e.link = link then
            (⟨link, target, e.created_at, some now⟩ : SymlinkEntry)
          else e)) ∧
    ((∀ e ∈ s.symlinks, e.link ≠ link) →
      (s.add_entry link target now).symlinks =
        s.symlinks ++ [⟨link, target, now, some now⟩]) := by
  constructor
  · intro hex
    exact addEntryGo_of_mem link target now s.symlinks h hex
  · intro hall
    exact addEntryGo_of_not_mem link target now s.symlinks hall

/-- Witness for C8: updating an existing key rewrites only that record
(target replaced, `last_verified` stamped, `created_at` kept); a fresh
key is appended with both stamps set to now. -/
theorem claim8_witness :
    (SymlinkState.add_entry
        ⟨[⟨⟨true, ["h", "a"]⟩, ⟨true, ["r", "a"]⟩, 1, none⟩,
          ⟨⟨true, ["h", "b"]⟩, ⟨true, ["r", "b"]⟩, 2, some 3⟩]⟩
        ⟨true, ["h", "a"]⟩ ⟨true, ["n"]⟩ 9).symlinks =
      [⟨⟨true, ["h", "a"]⟩, ⟨true, ["n"]⟩, 1, some 9⟩,
       ⟨⟨true, ["h", "b"]⟩, ⟨true, ["r", "b"]⟩, 2, some 3⟩] ∧
    (SymlinkState.add_entry
        ⟨[⟨⟨true, ["h", "a"]⟩, ⟨true, ["r", "a"]⟩, 1, none⟩,
          ⟨⟨true, ["h", "b"]⟩, ⟨true, ["r", "b"]⟩, 2, some 3⟩]⟩
        ⟨true, ["h", "c"]⟩ ⟨true, ["n"]⟩ 9).symlinks =
      [⟨⟨true, ["h", "a"]⟩, ⟨true, ["r", "a"]⟩, 1, none⟩,
       ⟨⟨true, ["h", "b"]⟩, ⟨true, ["r", "b"]⟩, 2, some 3⟩,
       ⟨⟨true, ["h", "c"]⟩, ⟨true, ["n"]⟩, 9, some 9⟩] := by
  have h1 := claim8_add_entry
    ⟨[⟨⟨true, ["h", "a"]⟩, ⟨true, ["r", "a"]⟩, 1, none⟩,
      ⟨⟨true, ["h", "b"]⟩, ⟨true, ["r", "b"]⟩, 2, some 3⟩]⟩
    ⟨true, ["h", "a"]⟩ ⟨true, ["n"]⟩ 9 (by decide)
  have h2 := claim8_add_entry
    ⟨[⟨⟨true, ["h", "a"]⟩, ⟨true, ["r", "a"]⟩, 1, none⟩,
      ⟨⟨true, ["h", "b"]⟩, ⟨true, ["r", "b"]⟩, 2, some 3⟩]⟩
    ⟨true, ["h", "c"]⟩ ⟨true, ["n"]⟩ 9 (by decide)
  exact ⟨(h1.1 (by decide)).trans (by decide),
         (h2.2 (by decide)).trans (by decide)⟩

/-! Claim C10: `remove_symlink` on non-symlinks and absent paths. -/

/-- C10: for every disk, store and link path: when the path exists on
disk but is not a symlink, `remove_symlink` returns the NotASymlink
error, performs no disk mutation, and leaves the persisted store exactly
as it was (so a record keyed by that link survives); when the path is
absent entirely, it succeeds, performs no disk mutation, and still drops
every record keyed by that link from the store. -/
theorem claim10_remove_symlink (d : Disk) (s : SymlinkState)
    (link : RPath) :
    (d.metaOk link = true → d.isSymlink link = false →
      remove_symlink d s link = (some .notASymlink, [], s)) ∧
    (d.metaOk link = false →
      remove_symlink d s link =
        (none, [],
          ⟨s.symlinks.filter (fun e => decide (e.link ≠ link))⟩)) := by
  constructor
  · intro h1 h2
    simp [remove_symlink, h1, h2]
  · intro h1
    simp [remove_symlink, h1, SymlinkState.remove_entry]

/-- Disk for the C10 witness: a regular file sits at `/h/f`; nothing
sits at `/h/g`. -/
def d10W : Disk where
  entry := fun p => if p = ⟨true, ["h", "f"]⟩ then .file else .absent
  children := fun _ => []
  readDirFails := fun _ => false
  symlinkFails := fun _ => false

/-- Witness for C10: removing the occupied non-symlink path errs and
leaves both records in the store; removing the absent path succeeds and
drops exactly its record. -/
theorem claim10_witness :
    remove_symlink d10W
        ⟨[⟨⟨true, ["h", "f"]⟩, ⟨true, ["r", "f"]⟩, 1, none⟩,
          ⟨⟨true, ["h", "g"]⟩, ⟨true, ["r", "g"]⟩, 2, none⟩]⟩
        ⟨true, ["h", "f"]⟩ =
      (some .notASymlink, [],
        ⟨[⟨⟨true, ["h", "f"]⟩, ⟨true, ["r", "f"]⟩, 1, none⟩,
          ⟨⟨true, ["h", "g"]⟩, ⟨true, ["r", "g"]⟩, 2, none⟩]⟩) ∧
    remove_symlink d10W
        ⟨[⟨⟨true, ["h", "f"]⟩, ⟨true, ["r", "f"]⟩, 1, none⟩,
          ⟨⟨true, ["h", "g"]⟩, ⟨true, ["r", "g"]⟩, 2, none⟩]⟩
        ⟨true, ["h", "g"]⟩ =
      (none, [],
        ⟨[⟨⟨true, ["h", "f"]⟩, ⟨true, ["r", "f"]⟩, 1, none⟩]⟩) := by
  have h1 := claim10_remove_symlink d10W
    ⟨[⟨⟨true, ["h", "f"]⟩, ⟨true, ["r", "f"]⟩, 1, none⟩,
      ⟨⟨true, ["h", "g"]⟩, ⟨true, ["r", "g"]⟩, 2, none⟩]⟩
    ⟨true, ["h", "f"]⟩
  have h2 := claim10_remove_symlink d10W
    ⟨[⟨⟨true, ["h", "f"]⟩, ⟨true, ["r", "f"]⟩, 1, none⟩,
      ⟨⟨true, ["h", "g"]⟩, ⟨true, ["r", "g"]⟩, 2, none⟩]⟩
    ⟨true, ["h", "g"]⟩
  exact ⟨h1.1 rfl rfl, (h2.2 rfl).trans (by decide)⟩

/-! Claims C1 and C7: the per-node decision. -/

theorem metaOk_false_iff (d : Disk) (p : RPath) :
    d.metaOk p = false ↔ d.entry p = .absent := by
  unfold Disk.metaOk
  cases d.entry p <;> simp

/-- C1 (amended): at a walk step whose source node is a directory, an
occupied target that does *not* resolve to a directory — a regular
file, a broken symlink, or a symlink resolving to a file — is skipped,
with nothing created and nothing mutated (only the skip is logged); but
descent happens whenever the occupied target *resolves* to a directory,
including when the target is itself a symlink pointing at a directory
(`is_dir()` follows symlinks).  At a step whose source node is a file,
any occupied target at all (file, directory, or any symlink) is
skipped. -/
theorem claim1_decision_amended (now : Nat) (cwd : List String)
    (dry : Bool) (fuel : Nat) (st : WalkSt) (src tgt link target : RPath) :
    (st.disk.metaOk link = true →
      create_symlink_if_needed now cwd dry st link target =
        (none, { st with log := st.log ++ [.skip link] })) ∧
    (st.disk.pathExists src = true → st.disk.metaOk tgt = true →
      st.disk.isDir tgt = false →
      walk now cwd dry (fuel + 1) (.dir src tgt) st =
        some (none, { st with log := st.log ++ [.skip tgt] })) ∧
    (st.disk.pathExists src = true → st.disk.metaOk tgt = true →
      st.disk.isDir tgt = true → readDirErr st.disk src = false →
      walk now cwd dry (fuel + 1) (.dir src tgt) st =
        walk now cwd dry fuel (.kids (st.disk.children src) src tgt) st) := by
  refine ⟨?_, ?_, ?_⟩
  · intro h
    simp [create_symlink_if_needed, h]
  · intro h1 h2 h3
    simp [walk, h1, h2, h3]
  · intro h1 h2 h3 h4
    simp [walk, h1, h2, h3, h4]

/-- Disk for the C1 counterexample: source directory `/s` with one file
child `c`; the target `/t` carries a *symlink* which resolves to the
real directory `/d`; `/t/c` is absent. -/
def d1X : Disk where
  entry := fun p =>
    if p = ⟨true, ["s"]⟩ then .dir
    else if p = ⟨true, ["s", "c"]⟩ then .file
    else if p = ⟨true, ["t"]⟩ then .symlinkTo ⟨true, ["d"]⟩ true true
    else if p = ⟨true, ["d"]⟩ then .dir
    else .absent
  children := fun p => if p = ⟨true, ["s"]⟩ then ["c"] else []
  readDirFails := fun _ => false
  symlinkFails := fun _ => false

/-- Counterexample for C1 as stated: the target path `/t` carries a
symlink (which resolves to a directory), so the claim demands Skip with
nothing modified — but the real-mode walk *descends* through it and
creates the symlink `/t/c`, logging a create decision instead of a
skip. -/
theorem claim1_counterexample :
    d1X.metaOk ⟨true, ["t"]⟩ = true ∧
    d1X.isSymlink ⟨true, ["t"]⟩ = true ∧
    (walk 7 [] false 5 (.dir ⟨true, ["s"]⟩ ⟨true, ["t"]⟩)
        ⟨d1X, ⟨[]⟩, [], []⟩).map
        (fun r => (r.1, r.2.log, r.2.fx, r.2.store.symlinks)) =
      some (none,
        [.create ⟨true, ["t", "c"]⟩ ⟨true, ["s", "c"]⟩],
        [.createdSymlink ⟨true, ["t", "c"]⟩ ⟨true, ["s", "c"]⟩],
        [⟨⟨true, ["t", "c"]⟩, ⟨true, ["s", "c"]⟩, 7, some 7⟩]) := by
  decide

/-- Disk for the C1 witness: one source directory `/s` (child `c`, a
file); `/t1` is occupied by a regular file; `/t2` is a real directory;
`/l` is occupied by a broken symlink. -/
def d1W : Disk where
  entry := fun p =>
    if p = ⟨true, ["s"]⟩ then .dir
    else if p = ⟨true, ["s", "c"]⟩ then .file
    else if p = ⟨true, ["t1"]⟩ then .file
    else if p = ⟨true, ["t2"]⟩ then .dir
    else if p = ⟨true, ["l"]⟩ then .symlinkTo ⟨true, ["gone"]⟩ false false
    else .absent
  children := fun p => if p = ⟨true, ["s"]⟩ then ["c"] else []
  readDirFails := fun _ => false
  symlinkFails := fun _ => false

/-- Witness for C1 (amended): a broken symlink at the link path is
skipped by the file step; a file at the directory step's target is
skipped; a real directory at the target is descended into. -/
theorem claim1_witness :
    create_symlink_if_needed 7 [] false ⟨d1W, ⟨[]⟩, [], []⟩
        ⟨true, ["l"]⟩ ⟨true, ["s", "c"]⟩ =
      (none, { (⟨d1W, ⟨[]⟩, [], []⟩ : WalkSt) with
        log := [.skip ⟨true, ["l"]⟩] }) ∧
    walk 7 [] false 5 (.dir ⟨true, ["s"]⟩ ⟨true, ["t1"]⟩)
        ⟨d1W, ⟨[]⟩, [], []⟩ =
      some (none, { (⟨d1W, ⟨[]⟩, [], []⟩ : WalkSt) with
        log := [.skip ⟨true, ["t1"]⟩] }) ∧
    walk 7 [] false 5 (.dir ⟨true, ["s"]⟩ ⟨true, ["t2"]⟩)
        ⟨d1W, ⟨[]⟩, [], []⟩ =
      walk 7 [] false 4
        (.kids (d1W.children ⟨true, ["s"]⟩) ⟨true, ["s"]⟩ ⟨true, ["t2"]⟩)
        ⟨d1W, ⟨[]⟩, [], []⟩ := by
  have h1 := claim1_decision_amended 7 [] false 4 ⟨d1W, ⟨[]⟩, [], []⟩
    ⟨true, ["s"]⟩ ⟨true, ["t1"]⟩ ⟨true, ["l"]⟩ ⟨true, ["s", "c"]⟩
  have h2 := claim1_decision_amended 7 [] false 4 ⟨d1W, ⟨[]⟩, [], []⟩
    ⟨true, ["s"]⟩ ⟨true, ["t2"]⟩ ⟨true, ["l"]⟩ ⟨true, ["s", "c"]⟩
  exact ⟨h1.1 rfl, h1.2.1 rfl rfl rfl, h2.2.2 rfl rfl rfl rfl⟩

/-- C7: at a walk step whose source node is an existing directory and
whose target path has no filesystem entry at all (not even a broken
symlink; `symlink_metadata` errs), the real-mode walk creates exactly
one symlink, at the target path, covering the whole source subtree: it
logs one create decision, performs the single `createdSymlink` effect
(plus at most a parent `create_dir_all`), upserts that one link into the
store, rewrites only the target path's disk entry, and never descends
into the source (no child of the source is read or linked). -/
theorem claim7_whole_subtree_link (now : Nat) (cwd : List String)
    (fuel : Nat) (st : WalkSt) (src tgt : RPath)
    (hsrc : st.disk.pathExists src = true)
    (htgt : st.disk.metaOk tgt = false)
    (hio : st.disk.symlinkFails tgt = false) :
    walk now cwd false (fuel + 1) (.dir src tgt) st =
      some (none,
        { st with
            disk := st.disk.setEntry tgt
              (.symlinkTo src (st.disk.pathExists src) (st.disk.isDir src)),
            store := st.store.add_entry tgt src now,
            log := st.log ++ [.create tgt src],
            fx := st.fx ++ parentFxOf st.disk tgt ++
              [.createdSymlink tgt src] }) := by
  have habs : st.disk.entry tgt = .absent := (metaOk_false_iff _ _).mp htgt
  simp [walk, hsrc, htgt, create_symlink, habs, hio]

/-- Disk for the C7 witness: source directory `/s` with children `c`
(a file) and `b` (a directory); the target `/t` is entirely absent, and
so is its parent-free root. -/
def d7W : Disk where
  entry := fun p =>
    if p = ⟨true, ["s"]⟩ then .dir
    else if p = ⟨true, ["s", "c"]⟩ then .file
    else if p = ⟨true, ["s", "b"]⟩ then .dir
    else if p = ⟨true, []⟩ then .dir
    else .absent
  children := fun p => if p = ⟨true, ["s"]⟩ then ["c", "b"] else []
  readDirFails := fun _ => false
  symlinkFails := fun _ => false

/-- Witness for C7: with `/t` absent, one link `/t -> /s` is created for
the whole subtree — one create decision, one symlink effect, one store
record — and the walk does not descend to `/t/c` or `/t/b`. -/
theorem claim7_witness :
    walk 7 [] false 5 (.dir ⟨true, ["s"]⟩ ⟨true, ["t"]⟩)
        ⟨d7W, ⟨[]⟩, [], []⟩ =
      some (none,
        { (⟨d7W, ⟨[]⟩, [], []⟩ : WalkSt) with
            disk := d7W.setEntry ⟨true, ["t"]⟩
              (.symlinkTo ⟨true, ["s"]⟩ (d7W.pathExists ⟨true, ["s"]⟩)
                (d7W.isDir ⟨true, ["s"]⟩)),
            store := SymlinkState.add_entry ⟨[]⟩ ⟨true, ["t"]⟩
              ⟨true, ["s"]⟩ 7,
            log := [.create ⟨true, ["t"]⟩ ⟨true, ["s"]⟩],
            fx := parentFxOf d7W ⟨true, ["t"]⟩ ++
              [.createdSymlink ⟨true, ["t"]⟩ ⟨true, ["s"]⟩] }) :=
  claim7_whole_subtree_link 7 [] 4 ⟨d7W, ⟨[]⟩, [], []⟩
    ⟨true, ["s"]⟩ ⟨true, ["t"]⟩ rfl rfl rfl

/-! Claim C3: error handling inside the walk. -/

/-- C3 (amended): an error while processing one child of the creation
walk — a failed symlink creation, an unreadable subdirectory — is *not*
contained: the `?` operator propagates it, the error becomes the result
for the whole sibling list, and the remaining siblings are never
processed (the result does not depend on them at all).  Per-link
failures in the *removal* loop, by contrast, are logged and skipped:
a link whose path is occupied by a non-symlink leaves the loop's result
exactly as if that link had not been listed. -/
theorem claim3_error_propagation_amended (now : Nat) (cwd : List String)
    (dry : Bool) (fuel : Nat) (st st2 : WalkSt) (src tgt : RPath)
    (c : String) (e : WErr) (d : Disk) (s : SymlinkState) (l : RPath)
    (ls : List RPath) :
    (c ≠ ".git" →
      childStep now cwd dry fuel st src tgt c = some (some e, st2) →
      ∀ cs : List String,
        walk now cwd dry (fuel + 1) (.kids (c :: cs) src tgt) st =
          some (some e, st2)) ∧
    (d.metaOk l = true → d.isSymlink l = false →
      removeLoop d s (l :: ls) = removeLoop d s ls) := by
  constructor
  · intro hc hstep cs
    rw [walk_kids_cons, if_neg hc, hstep]
  · intro h1 h2
    simp [removeLoop, remove_symlink, h1, h2]

/-- Disk for the C3 counterexample and witness: source `/s` has two file
children `a` and `b`; the target `/t` is a real directory with both
`/t/a` and `/t/b` absent; creating the symlink at `/t/a` fails with an
I/O error.  For the removal half: `/h/p` is occupied by a regular file
and `/h/q` by a symlink. -/
def d3X : Disk where
  entry := fun p =>
    if p = ⟨true, ["s"]⟩ then .dir
    else if p = ⟨true, ["s", "a"]⟩ then .file
    else if p = ⟨true, ["s", "b"]⟩ then .file
    else if p = ⟨true, ["t"]⟩ then .dir
    else if p = ⟨true, ["h", "p"]⟩ then .file
    else if p = ⟨true, ["h", "q"]⟩ then
      .symlinkTo ⟨true, ["r", "q"]⟩ true false
    else .absent
  children := fun p => if p = ⟨true, ["s"]⟩ then ["a", "b"] else []
  readDirFails := fun _ => false
  symlinkFails := fun p => p = ⟨true, ["t", "a"]⟩

/-- Counterexample for C3 as stated: the failed creation at `/t/a` stops
the whole walk with the error — sibling `b` is never processed (no
decision for it is ever logged) even though `/s/b` exists and `/t/b` is
absent, where the claim demands the walk continue and link it. -/
theorem claim3_counterexample :
    (walk 7 [] false 5 (.dir ⟨true, ["s"]⟩ ⟨true, ["t"]⟩)
        ⟨d3X, ⟨[]⟩, [], []⟩).map
        (fun r => (r.1, r.2.log, r.2.fx, r.2.store.symlinks)) =
      some (some .ioFailure,
        [.create ⟨true, ["t", "a"]⟩ ⟨true, ["s", "a"]⟩], [], []) ∧
    d3X.pathExists ⟨true, ["s", "b"]⟩ = true ∧
    d3X.metaOk ⟨true, ["t", "b"]⟩ = false := by
  decide

/-- Witness for C3 (amended): the failing child `a` aborts the sibling
list whatever follows it, and a failing removal of the non-symlink
`/h/p` leaves the removal loop behaving as if only `/h/q` were
listed. -/
theorem claim3_witness :
    walk 7 [] false 5
        (.kids ["a", "b"] ⟨true, ["s"]⟩ ⟨true, ["t"]⟩)
        ⟨d3X, ⟨[]⟩, [], []⟩ =
      some (some .ioFailure,
        ⟨d3X, ⟨[]⟩,
          [.create ⟨true, ["t", "a"]⟩ ⟨true, ["s", "a"]⟩], []⟩) ∧
    removeLoop d3X ⟨[]⟩ [⟨true, ["h", "p"]⟩, ⟨true, ["h", "q"]⟩] =
      removeLoop d3X ⟨[]⟩ [⟨true, ["h", "q"]⟩] := by
  have h := claim3_error_propagation_amended 7 [] false 4
    ⟨d3X, ⟨[]⟩, [], []⟩
    ⟨d3X, ⟨[]⟩, [.create ⟨true, ["t", "a"]⟩ ⟨true, ["s", "a"]⟩], []⟩
    ⟨true, ["s"]⟩ ⟨true, ["t"]⟩ "a" .ioFailure d3X ⟨[]⟩
    ⟨true, ["h", "p"]⟩ [⟨true, ["h", "q"]⟩]
  exact ⟨h.1 (by decide) rfl ["b"], h.2 rfl rfl⟩

/-! Claim C6: removal completeness and precision. -/

theorem remove_symlink_of_canRemove (d : Disk) (s : SymlinkState)
    (l : RPath) (h : canRemove d l = true) :
    remove_symlink d s l =
      (none, (if d.isSymlink l then [FsOp.removedFile l] else []),
        ⟨s.symlinks.filter (fun e => decide (e.link ≠ l))⟩) := by
  unfold canRemove at h
  unfold remove_symlink SymlinkState.remove_entry
  by_cases h1 : d.metaOk l = true
  · simp only [h1, Bool.not_true, Bool.false_or] at h
    simp [h1, h]
  · have h1' : d.metaOk l = false := by
      cases hm : d.metaOk l
      · rfl
      · exact absurd hm h1
    by_cases h2 : d.isSymlink l = true
    · unfold Disk.metaOk at h1'
      unfold Disk.isSymlink at h2
      cases hde : d.entry l <;> rw [hde] at h1' h2 <;> simp_all
    · have h2' : d.isSymlink l = false := by
        cases hm : d.isSymlink l
        · rfl
        · exact absurd hm h2
      simp [h1', h2']

theorem remove_symlink_of_not_canRemove (d : Disk) (s : SymlinkState)
    (l : RPath) (h : canRemove d l = false) :
    remove_symlink d s l = (some .notASymlink, [], s) := by
  unfold canRemove at h
  rw [Bool.or_eq_false_iff, Bool.not_eq_false'] at h
  simp [remove_symlink, h.1, h.2]

theorem removeLoop_spec (d : Disk) :
    ∀ (L : List RPath) (s : SymlinkState),
      (removeLoop d s L).2.1.symlinks =
        s.symlinks.filter (fun se =>
          !(decide (se.link ∈ L) && canRemove d se.link)) ∧
      (removeLoop d s L).1 = (L.filter (canRemove d)).length := by
  intro L
  induction L with
  | nil =>
    intro s
    refine ⟨?_, rfl⟩
    simp [removeLoop]
  | cons l ls ih =>
    intro s
    by_cases hc : canRemove d l = true
    · have hrw := remove_symlink_of_canRemove d s l hc
      have step : removeLoop d s (l :: ls) =
          ((removeLoop d
              ⟨s.symlinks.filter (fun e => decide (e.link ≠ l))⟩ ls).1 + 1,
           (removeLoop d
              ⟨s.symlinks.filter (fun e => decide (e.link ≠ l))⟩ ls).2.1,
           (if d.isSymlink l then [FsOp.removedFile l] else []) ++
             (removeLoop d
               ⟨s.symlinks.filter (fun e => decide (e.link ≠ l))⟩ ls).2.2) := by
        simp only [removeLoop, hrw]
      constructor
      · rw [step]
        have hih :=
          (ih ⟨s.symlinks.filter (fun e => decide (e.link ≠ l))⟩).1
        rw [hih, List.filter_filter]
        refine List.filter_congr ?_
        intro se _
        by_cases hel : se.link = l
        · subst hel
          simp [hc]
        · simp [hel]
      · rw [step]
        have hih :=
          (ih ⟨s.symlinks.filter (fun e => decide (e.link ≠ l))⟩).2
        rw [hih, List.filter_cons, if_pos hc]
        simp
    · have hc' : canRemove d l = false := by
        cases hm : canRemove d l
        · rfl
        · exact absurd hm hc
      have hrw := remove_symlink_of_not_canRemove d s l hc'
      have step : removeLoop d s (l :: ls) = removeLoop d s ls := by
        simp only [removeLoop, hrw]
      constructor
      · rw [step, (ih s).1]
        refine List.filter_congr ?_
        intro se _
        by_cases hel : se.link = l
        · subst hel
          simp [hc']
        · simp [hel]
      · rw [step, (ih s).2, List.filter_cons, if_neg (by simp [hc'])]

theorem length_filter_map_link (p : RPath → Bool) :
    ∀ l : List SymlinkEntry,
      ((l.map (fun se => se.link)).filter p).length =
        (l.filter (fun se => p se.link)).length
  | [] => rfl
  | e :: es => by
    by_cases h : p e.link
    · simp only [List.map_cons, List.filter_cons, h, if_pos, List.length_cons]
      rw [length_filter_map_link p es]
    · simp only [List.map_cons, List.filter_cons, h]
      exact length_filter_map_link p es

/-- C6 (amended): removing a managed entry deletes from the state store
exactly those records whose target is path-prefixed by the entry's root
path (the source for File and Directory kinds, the clone target for
Repository kind) *and* whose link path can actually be unlinked — the
link is absent or is a symlink on disk.  A prefixed record whose link
path is occupied by a non-symlink fails removal, is logged, and stays in
the store; a record whose target is not prefixed by the root is never
deleted.  The count returned is the number of successful removals. -/
theorem claim6_removal_amended (d : Disk) (s : SymlinkState)
    (e : DotfileEntry)
    (h : (s.symlinks.map (fun x => x.link)).Nodup) :
    (remove_symlinks_for_entry d s e false).2.1.symlinks =
      s.symlinks.filter (fun se =>
        !(se.target.startsWith (rootPathOf e) && canRemove d se.link)) ∧
    (remove_symlinks_for_entry d s e false).1 =
      ((s.symlinks.filter (fun se =>
        se.target.startsWith (rootPathOf e))).filter (fun se =>
          canRemove d se.link)).length := by
  by_cases hemp : s.symlinks.isEmpty = true
  · have : s.symlinks = [] := List.isEmpty_iff.mp hemp
    simp [remove_symlinks_for_entry, hemp, this]
  · have hne : s.symlinks.isEmpty = false := by
      cases hm : s.symlinks.isEmpty
      · rfl
      · exact absurd hm hemp
    have hred : remove_symlinks_for_entry d s e false =
        removeLoop d s
          ((s.symlinks.filter (fun se =>
            se.target.startsWith (rootPathOf e))).map (fun se => se.link)) := by
      simp [remove_symlinks_for_entry, hne]
    have hspec := removeLoop_spec d
      ((s.symlinks.filter (fun se =>
        se.target.startsWith (rootPathOf e))).map (fun se => se.link)) s
    have hmem : ∀ se ∈ s.symlinks,
        decide (se.link ∈
          (s.symlinks.filter (fun x =>
            x.target.startsWith (rootPathOf e))).map (fun x => x.link)) =
          se.target.startsWith (rootPathOf e) := by
      intro se hse
      by_cases hp : se.target.startsWith (rootPathOf e) = true
      · have : se.link ∈ (s.symlinks.filter (fun x =>
            x.target.startsWith (rootPathOf e))).map (fun x => x.link) :=
          List.mem_map_of_mem _ (List.mem_filter.mpr ⟨hse, hp⟩)
        simp [this, hp]
      · have : se.link ∉ (s.symlinks.filter (fun x =>
            x.target.startsWith (rootPathOf e))).map (fun x => x.link) := by
          intro hmem
          rcases List.mem_map.mp hmem with ⟨se', hse', hlk⟩
          have hse'2 := List.mem_filter.mp hse'
          have heq := List.inj_on_of_nodup_map h hse'2.1 hse hlk
          rw [heq] at hse'2
          exact hp hse'2.2
        simp [this, hp]
    constructor
    · rw [hred, hspec.1]
      refine List.filter_congr ?_
      intro se hse
      rw [hmem se hse]
    · rw [hred, hspec.2, length_filter_map_link]

/-- Git entry for the C6 counterexample and witness: clone target
`/repo`, so the removal root is `/repo`. -/
def e6X : DotfileEntry :=
  ⟨"https://example/repo.git", ⟨false, ["https:", "example", "repo.git"]⟩,
    ⟨true, ["repo"]⟩, .git, none, none⟩

/-- Disk for the C6 counterexample and witness: `/h/x` is occupied by a
regular file (so its removal fails), `/h/y` is a symlink, `/h/z` is
absent. -/
def d6X : Disk where
  entry := fun p =>
    if p = ⟨true, ["h", "x"]⟩ then .file
    else if p = ⟨true, ["h", "y"]⟩ then
      .symlinkTo ⟨true, ["repo", "y"]⟩ true false
    else .absent
  children := fun _ => []
  readDirFails := fun _ => false
  symlinkFails := fun _ => false

/-- Counterexample for C6 as stated: the store holds one record whose
target `/repo/x` *is* prefixed by the entry's root `/repo`, but its link
`/h/x` is occupied by a non-symlink, so `remove_symlink` bails and the
record is *not* deleted — removal ran, removed zero links, and the
prefixed record survived. -/
theorem claim6_counterexample :
    RPath.startsWith ⟨true, ["repo", "x"]⟩ (rootPathOf e6X) = true ∧
    remove_symlinks_for_entry d6X
        ⟨[⟨⟨true, ["h", "x"]⟩, ⟨true, ["repo", "x"]⟩, 1, none⟩]⟩
        e6X false =
      (0, ⟨[⟨⟨true, ["h", "x"]⟩, ⟨true, ["repo", "x"]⟩, 1, none⟩]⟩, []) := by
  decide

/-- Witness for C6 (amended): of three records — prefixed with a symlink
link (removed), prefixed with a non-symlink link (kept, removal failed),
and non-prefixed (kept, never selected) — exactly the first is deleted
and the count is 1. -/
theorem claim6_witness :
    (remove_symlinks_for_entry d6X
        ⟨[⟨⟨true, ["h", "y"]⟩, ⟨true, ["repo", "y"]⟩, 1, none⟩,
          ⟨⟨true, ["h", "x"]⟩, ⟨true, ["repo", "x"]⟩, 2, none⟩,
          ⟨⟨true, ["h", "z"]⟩, ⟨true, ["other", "z"]⟩, 3, none⟩]⟩
        e6X false).2.1.symlinks =
      [⟨⟨true, ["h", "x"]⟩, ⟨true, ["repo", "x"]⟩, 2, none⟩,
       ⟨⟨true, ["h", "z"]⟩, ⟨true, ["other", "z"]⟩, 3, none⟩] ∧
    (remove_symlinks_for_entry d6X
        ⟨[⟨⟨true, ["h", "y"]⟩, ⟨true, ["repo", "y"]⟩, 1, none⟩,
          ⟨⟨true, ["h", "x"]⟩, ⟨true, ["repo", "x"]⟩, 2, none⟩,
          ⟨⟨true, ["h", "z"]⟩, ⟨true, ["other", "z"]⟩, 3, none⟩]⟩
        e6X false).1 = 1 := by
  have h := claim6_removal_amended d6X
    ⟨[⟨⟨true, ["h", "y"]⟩, ⟨true, ["repo", "y"]⟩, 1, none⟩,
      ⟨⟨true, ["h", "x"]⟩, ⟨true, ["repo", "x"]⟩, 2, none⟩,
      ⟨⟨true, ["h", "z"]⟩, ⟨true, ["other", "z"]⟩, 3, none⟩]⟩
    e6X (by decide)
  exact ⟨h.1.trans (by decide), h.2.trans (by decide)⟩

/-! Claim C2: dry-run behaviour.  First, equation lemmas for the walk's
directory step, then the dry-run invariance of the whole walk stack. -/

theorem walk_kids_nil (now : Nat) (cwd : List String) (dry : Bool)
    (fuel : Nat) (st : WalkSt) (src tgt : RPath) :
    walk now cwd dry (fuel + 1) (.kids [] src tgt) st = some (none, st) :=
  rfl

theorem walk_dir_skipMissing (now : Nat) (cwd : List String) (dry : Bool)
    (fuel : Nat) (st : WalkSt) (src tgt : RPath)
    (h : st.disk.pathExists src = false) :
    walk now cwd dry (fuel + 1) (.dir src tgt) st =
      some (none, { st with log := st.log ++ [.skipMissingSource tgt src] }) := by
  simp [walk, h]

theorem walk_dir_skip (now : Nat) (cwd : List String) (dry : Bool)
    (fuel : Nat) (st : WalkSt) (src tgt : RPath)
    (h1 : st.disk.pathExists src = true) (h2 : st.disk.metaOk tgt = true)
    (h3 : st.disk.isDir tgt = false) :
    walk now cwd dry (fuel + 1) (.dir src tgt) st =
      some (none, { st with log := st.log ++ [.skip tgt] }) := by
  simp [walk, h1, h2, h3]

theorem walk_dir_rdErr (now : Nat) (cwd : List String) (dry : Bool)
    (fuel : Nat) (st : WalkSt) (src tgt : RPath)
    (h1 : st.disk.pathExists src = true) (h2 : st.disk.metaOk tgt = true)
    (h3 : st.disk.isDir tgt = true) (h4 : readDirErr st.disk src = true) :
    walk now cwd dry (fuel + 1) (.dir src tgt) st =
      some (some .readDirFailed, st) := by
  simp [walk, h1, h2, h3, h4]

theorem walk_dir_descend (now : Nat) (cwd : List String) (dry : Bool)
    (fuel : Nat) (st : WalkSt) (src tgt : RPath)
    (h1 : st.disk.pathExists src = true) (h2 : st.disk.metaOk tgt = true)
    (h3 : st.disk.isDir tgt = true) (h4 : readDirErr st.disk src = false) :
    walk now cwd dry (fuel + 1) (.dir src tgt) st =
      walk now cwd dry fuel (.kids (st.disk.children src) src tgt) st := by
  simp [walk, h1, h2, h3, h4]

theorem walk_dir_create_dry (now : Nat) (cwd : List String) (fuel : Nat)
    (st : WalkSt) (src tgt : RPath)
    (h1 : st.disk.pathExists src = true) (h2 : st.disk.metaOk tgt = false) :
    walk now cwd true (fuel + 1) (.dir src tgt) st =
      some (none, { st with log := st.log ++ [.create tgt src] }) := by
  simp [walk, h1, h2]

theorem cisn_dry_unchanged (now : Nat) (cwd : List String) (st : WalkSt)
    (link target : RPath) :
    (create_symlink_if_needed now cwd true st link target).1 = none ∧
    (create_symlink_if_needed now cwd true st link target).2.disk = st.disk ∧
    (create_symlink_if_needed now cwd true st link target).2.store = st.store ∧
    (create_symlink_if_needed now cwd true st link target).2.fx = st.fx := by
  by_cases h1 : (st.disk.pathExists link || st.disk.metaOk link) = true <;>
    by_cases h2 : (!(st.disk.pathExists target)) = true <;>
      simp [create_symlink_if_needed, h1, h2]

theorem walk_dry_unchanged (now : Nat) (cwd : List String) :
    ∀ (fuel : Nat) (task : Task) (st : WalkSt) (r : Option WErr × WalkSt),
      walk now cwd true fuel task st = some r →
      r.2.disk = st.disk ∧ r.2.store = st.store ∧ r.2.fx = st.fx := by
  intro fuel
  induction fuel with
  | zero =>
    intro task st r h
    exact absurd h (by simp [walk])
  | succ f ih =>
    intro task st r h
    match task with
    | .kids [] src tgt =>
      rw [walk_kids_nil] at h
      cases h
      exact ⟨rfl, rfl, rfl⟩
    | .kids (c :: cs) src tgt =>
      rw [walk_kids_cons] at h
      by_cases hg : c = ".git"
      · rw [if_pos hg] at h
        exact ih _ _ _ h
      · rw [if_neg hg] at h
        unfold childStep at h
        by_cases hd : st.disk.isDir (src.child c) = true
        · rw [if_pos hd] at h
          cases hw : walk now cwd true f (.dir (src.child c) (tgt.child c))
              st with
          | none =>
            rw [hw] at h
            exact absurd h (by simp)
          | some p =>
            rw [hw] at h
            have hp := ih _ _ _ hw
            obtain ⟨e1, st1⟩ := p
            cases e1 with
            | some e =>
              cases h
              exact hp
            | none =>
              have h2 := ih _ _ _ h
              exact ⟨h2.1.trans hp.1, h2.2.1.trans hp.2.1,
                h2.2.2.trans hp.2.2⟩
        · rw [if_neg hd] at h
          have hq := cisn_dry_unchanged now cwd st (tgt.child c) (src.child c)
          rcases hqe : create_symlink_if_needed now cwd true st (tgt.child c)
              (src.child c) with ⟨qe, qst⟩
          rw [hqe] at h hq
          have hqe1 : qe = none := hq.1
          subst hqe1
          have h2 := ih _ _ _ h
          exact ⟨h2.1.trans hq.2.1, h2.2.1.trans hq.2.2.1,
            h2.2.2.trans hq.2.2.2⟩
    | .dir src tgt =>
      cases hpe : st.disk.pathExists src with
      | false =>
        rw [walk_dir_skipMissing now cwd true f st src tgt hpe] at h
        cases h
        exact ⟨rfl, rfl, rfl⟩
      | true =>
        cases hmk : st.disk.metaOk tgt with
        | false =>
          rw [walk_dir_create_dry now cwd f st src tgt hpe hmk] at h
          cases h
          exact ⟨rfl, rfl, rfl⟩
        | true =>
          cases hdir : st.disk.isDir tgt with
          | false =>
            rw [walk_dir_skip now cwd true f st src tgt hpe hmk hdir] at h
            cases h
            exact ⟨rfl, rfl, rfl⟩
          | true =>
            cases hrd : readDirErr st.disk src with
            | true =>
              rw [walk_dir_rdErr now cwd true f st src tgt hpe hmk hdir hrd]
                at h
              cases h
              exact ⟨rfl, rfl, rfl⟩
            | false =>
              rw [walk_dir_descend now cwd true f st src tgt hpe hmk hdir hrd]
                at h
              exact ih _ _ _ h

theorem pgf_dry_unchanged (now : Nat) (cwd : List String) (fuel : Nat) :
    ∀ (fl : List String) (repo base : RPath) (st : WalkSt)
      (r : Option WErr × WalkSt),
      process_git_folders now cwd true fuel st fl repo base = some r →
      r.2.disk = st.disk ∧ r.2.store = st.store ∧ r.2.fx = st.fx := by
  intro fl
  induction fl with
  | nil =>
    intro repo base st r h
    cases h
    exact ⟨rfl, rfl, rfl⟩
  | cons f0 fl ih =>
    intro repo base st r h
    unfold process_git_folders at h
    by_cases h1 : (!(st.disk.pathExists (repo.child f0))) = true
    · rw [if_pos h1] at h
      exact ih _ _ _ _ h
    · rw [if_neg h1] at h
      by_cases h2 : readDirErr st.disk (repo.child f0) = true
      · rw [if_pos h2] at h
        cases h
        exact ⟨rfl, rfl, rfl⟩
      · rw [if_neg h2] at h
        cases hw : walk now cwd true fuel
            (.kids (st.disk.children (repo.child f0)) (repo.child f0) base)
            st with
        | none =>
          rw [hw] at h
          exact absurd h (by simp)
        | some p =>
          rw [hw] at h
          have hp := walk_dry_unchanged now cwd _ _ _ _ hw
          obtain ⟨e1, st1⟩ := p
          cases e1 with
          | some e =>
            cases h
            exact hp
          | none =>
            have h2 := ih _ _ _ _ h
            exact ⟨h2.1.trans hp.1, h2.2.1.trans hp.2.1,
              h2.2.2.trans hp.2.2⟩

/-- C2 (amended): the symlink-creation walk for an entry mutates nothing
under dry-run: whenever it completes, the filesystem, the persisted
symlink store, and the effect list come back exactly as they went in —
only the report of decisions grows.  (The claim's stronger statement
fails elsewhere: `add` still clones a git source and saves the updated
configuration even under dry-run, and the reported decision sequence can
differ from a real run's when the same target path is reached twice,
since real-mode creations make later visits skip; see the
counterexample.) -/
theorem claim2_dry_run_amended (now : Nat) (cwd : List String)
    (fuel : Nat) (st : WalkSt) (entry : DotfileEntry) (base : RPath)
    (r : Option WErr × WalkSt)
    (h : create_symlinks_for_entry now cwd true fuel st entry base = some r) :
    r.2.disk = st.disk ∧ r.2.store = st.store ∧ r.2.fx = st.fx := by
  unfold create_symlinks_for_entry at h
  cases hty : entry.ty with
  | file =>
    rw [hty] at h
    cases hlast : entry.sourcePath.comps.getLast? with
    | none =>
      rw [hlast] at h
      cases h
      exact ⟨rfl, rfl, rfl⟩
    | some fn =>
      rw [hlast] at h
      have hq := cisn_dry_unchanged now cwd st (base.child fn)
        entry.sourcePath
      cases h
      exact hq.2
  | directory =>
    rw [hty] at h
    by_cases h2 : readDirErr st.disk entry.sourcePath = true
    · rw [if_pos h2] at h
      cases h
      exact ⟨rfl, rfl, rfl⟩
    · rw [if_neg h2] at h
      exact walk_dry_unchanged now cwd _ _ _ _ h
  | git =>
    rw [hty] at h
    cases hfl : entry.folders with
    | some fl =>
      rw [hfl] at h
      exact pgf_dry_unchanged now cwd fuel _ _ _ _ _ h
    | none =>
      rw [hfl] at h
      by_cases h2 : readDirErr st.disk entry.target = true
      · rw [if_pos h2] at h
        cases h
        exact ⟨rfl, rfl, rfl⟩
      · rw [if_neg h2] at h
        exact walk_dry_unchanged now cwd _ _ _ _ h

/-- Disk for the first half of the C2 counterexample: the clone target
`/g/repo` exists as an (empty) directory, everything else is absent. -/
def d2X : Disk where
  entry := fun p => if p = ⟨true, ["g", "repo"]⟩ then .dir else .absent
  children := fun _ => []
  readDirFails := fun _ => false
  symlinkFails := fun _ => false

/-- Disk for the second half of the C2 counterexample: a cloned
repository `/repo` with two folders `f1` and `f2`, each containing a
file named `x`; the link base `/home` is an empty real directory. -/
def d2Y : Disk where
  entry := fun p =>
    if p = ⟨true, ["repo"]⟩ then .dir
    else if p = ⟨true, ["repo", "f1"]⟩ then .dir
    else if p = ⟨true, ["repo", "f1", "x"]⟩ then .file
    else if p = ⟨true, ["repo", "f2"]⟩ then .dir
    else if p = ⟨true, ["repo", "f2", "x"]⟩ then .file
    else if p = ⟨true, ["home"]⟩ then .dir
    else .absent
  children := fun p =>
    if p = ⟨true, ["repo", "f1"]⟩ then ["x"]
    else if p = ⟨true, ["repo", "f2"]⟩ then ["x"]
    else []
  readDirFails := fun _ => false
  symlinkFails := fun _ => false

/-- The git entry with two selected folders used in the C2
counterexample. -/
def e2Y : DotfileEntry :=
  ⟨"r", ⟨true, ["repo"]⟩, ⟨true, ["repo"]⟩, .git, some ⟨true, ["home"]⟩,
    some ["f1", "f2"]⟩

/-- Counterexample for C2 as stated, in two halves.  First: running
`add` on a git source in dry-run mode still clones the repository and
writes the configuration — two filesystem mutations under
`simulate = true`.  Second: on a repository whose two selected folders
each contain a file `x`, the real run reports (create `/home/x`, then
skip `/home/x` — the link now exists) while the dry run reports two
creates: the decision sequences differ. -/
theorem claim2_counterexample :
    (add 7 [] ⟨true, ["home"]⟩ ⟨true, ["g"]⟩ "repo" none
        ⟨d2X, ⟨[]⟩, [], []⟩ ⟨none, []⟩ "u" ⟨false, ["u"]⟩ .git
        none none none true 3).map (fun r => (r.1, r.2.1.fx)) =
      some (none, [.clonedRepo "u" ⟨true, ["g", "repo"]⟩, .wroteConfig]) ∧
    (create_symlinks_for_entry 7 [] false 5 ⟨d2Y, ⟨[]⟩, [], []⟩ e2Y
        ⟨true, ["home"]⟩).map (fun r => r.2.log) =
      some [.create ⟨true, ["home", "x"]⟩ ⟨true, ["repo", "f1", "x"]⟩,
            .skip ⟨true, ["home", "x"]⟩] ∧
    (create_symlinks_for_entry 7 [] true 5 ⟨d2Y, ⟨[]⟩, [], []⟩ e2Y
        ⟨true, ["home"]⟩).map (fun r => r.2.log) =
      some [.create ⟨true, ["home", "x"]⟩ ⟨true, ["repo", "f1", "x"]⟩,
            .create ⟨true, ["home", "x"]⟩ ⟨true, ["repo", "f2", "x"]⟩] := by
  decide

/-- Disk for the C2 witness: a source file `/s/c` and a base directory
`/b` already containing a file `c`. -/
def d2W : Disk where
  entry := fun p =>
    if p = ⟨true, ["s", "c"]⟩ then .file
    else if p = ⟨true, ["b"]⟩ then .dir
    else if p = ⟨true, ["b", "c"]⟩ then .file
    else .absent
  children := fun _ => []
  readDirFails := fun _ => false
  symlinkFails := fun _ => false

/-- The file entry used in the C2 witness. -/
def e2W : DotfileEntry :=
  ⟨"/s/c", ⟨true, ["s", "c"]⟩, ⟨true, ["s", "c"]⟩, .file, none, none⟩

/-- Witness for C2 (amended): a completed dry-run walk hands back the
disk, the store and the effect list unchanged. -/
theorem claim2_witness :
    ((none, (⟨d2W, ⟨[]⟩, [.skip ⟨true, ["b", "c"]⟩], []⟩ : WalkSt)) :
        Option WErr × WalkSt).2.disk =
      (⟨d2W, ⟨[]⟩, [], []⟩ : WalkSt).disk ∧
    ((none, (⟨d2W, ⟨[]⟩, [.skip ⟨true, ["b", "c"]⟩], []⟩ : WalkSt)) :
        Option WErr × WalkSt).2.store =
      (⟨d2W, ⟨[]⟩, [], []⟩ : WalkSt).store ∧
    ((none, (⟨d2W, ⟨[]⟩, [.skip ⟨true, ["b", "c"]⟩], []⟩ : WalkSt)) :
        Option WErr × WalkSt).2.fx =
      (⟨d2W, ⟨[]⟩, [], []⟩ : WalkSt).fx :=
  claim2_dry_run_amended 7 [] 3 ⟨d2W, ⟨[]⟩, [], []⟩ e2W ⟨true, ["b"]⟩
    (none, ⟨d2W, ⟨[]⟩, [.skip ⟨true, ["b", "c"]⟩], []⟩) rfl

/-- The walk started on a directory pair eventually completes for some
fuel. -/
def WalkTerminates (now : Nat) (cwd : List String) (dry : Bool)
    (task : Task) (st : WalkSt) : Prop :=
  ∃ fuel, walk now cwd dry fuel task st ≠ none

/-- Beyond depth `n`, no target path resolves to a directory. -/
def TargetDepthBounded (d : Disk) (n : Nat) : Prop :=
  ∀ p : RPath, n ≤ p.comps.length → d.isDir p = false

/-! Claim C9: termination of the recursive walk. -/

theorem walk_dir_create (now : Nat) (cwd : List String) (dry : Bool)
    (fuel : Nat) (st : WalkSt) (src tgt : RPath)
    (h1 : st.disk.pathExists src = true) (h2 : st.disk.metaOk tgt = false) :
    walk now cwd dry (fuel + 1) (.dir src tgt) st =
      (if dry then
        some (none, { st with log := st.log ++ [.create tgt src] })
       else
        some (create_symlink now cwd
          { st with log := st.log ++ [.create tgt src] } tgt src)) := by
  cases dry <;> simp [walk, h1, h2]

theorem walk_mono (now : Nat) (cwd : List String) (dry : Bool) :
    ∀ (fuel fuel' : Nat) (task : Task) (st : WalkSt)
      (r : Option WErr × WalkSt),
      fuel ≤ fuel' → walk now cwd dry fuel task st = some r →
      walk now cwd dry fuel' task st = some r := by
  intro fuel
  induction fuel with
  | zero =>
    intro fuel' task st r hle h
    exact absurd h (by simp [walk])
  | succ f ih =>
    intro fuel' task st r hle h
    obtain ⟨f', rfl⟩ : ∃ f2, fuel' = f2 + 1 := ⟨fuel' - 1, by omega⟩
    have hff : f ≤ f' := by omega
    match task with
    | .kids [] src tgt =>
      rw [walk_kids_nil] at h ⊢
      exact h
    | .kids (c :: cs) src tgt =>
      rw [walk_kids_cons] at h ⊢
      by_cases hg : c = ".git"
      · rw [if_pos hg] at h ⊢
        exact ih f' _ _ _ hff h
      · rw [if_neg hg] at h ⊢
        unfold childStep at h ⊢
        by_cases hd : st.disk.isDir (src.child c) = true
        · rw [if_pos hd] at h ⊢
          cases hw : walk now cwd dry f (.dir (src.child c) (tgt.child c))
              st with
          | none =>
            rw [hw] at h
            exact absurd h (by simp)
          | some p =>
            rw [hw] at h
            rw [ih f' _ _ _ hff hw]
            obtain ⟨e1, st1⟩ := p
            cases e1 with
            | some e => exact h
            | none => exact ih f' _ _ _ hff h
        · rw [if_neg hd] at h ⊢
          rcases hq : create_symlink_if_needed now cwd dry st (tgt.child c)
              (src.child c) with ⟨qe, qst⟩
          rw [hq] at h
          cases qe with
          | some e => exact h
          | none => exact ih f' _ _ _ hff h
    | .dir src tgt =>
      cases hpe : st.disk.pathExists src with
      | false =>
        rw [walk_dir_skipMissing now cwd dry f st src tgt hpe] at h
        rw [walk_dir_skipMissing now cwd dry f' st src tgt hpe]
        exact h
      | true =>
        cases hmk : st.disk.metaOk tgt with
        | false =>
          rw [walk_dir_create now cwd dry f st src tgt hpe hmk] at h
          rw [walk_dir_create now cwd dry f' st src tgt hpe hmk]
          exact h
        | true =>
          cases hdir : st.disk.isDir tgt with
          | false =>
            rw [walk_dir_skip now cwd dry f st src tgt hpe hmk hdir] at h
            rw [walk_dir_skip now cwd dry f' st src tgt hpe hmk hdir]
            exact h
          | true =>
            cases hrd : readDirErr st.disk src with
            | true =>
              rw [walk_dir_rdErr now cwd dry f st src tgt hpe hmk hdir hrd]
                at h
              rw [walk_dir_rdErr now cwd dry f' st src tgt hpe hmk hdir hrd]
              exact h
            | false =>
              rw [walk_dir_descend now cwd dry f st src tgt hpe hmk hdir hrd]
                at h
              rw [walk_dir_descend now cwd dry f' st src tgt hpe hmk hdir
                hrd]
              exact ih f' _ _ _ hff h

theorem walk_dry_dir_terminates (now : Nat) (cwd : List String)
    (dk : Disk) (n : Nat) (hb : TargetDepthBounded dk n) :
    ∀ (k : Nat) (tgt src : RPath) (st : WalkSt),
      st.disk = dk → n ≤ k + tgt.comps.length →
      ∃ fuel r, walk now cwd true fuel (.dir src tgt) st = some r ∧
        r.2.disk = dk := by
  intro k
  induction k with
  | zero =>
    intro tgt src st hdisk hk
    have hdir : st.disk.isDir tgt = false := by
      rw [hdisk]
      exact hb tgt (by omega)
    cases hpe : st.disk.pathExists src with
    | false =>
      exact ⟨1, _, walk_dir_skipMissing now cwd true 0 st src tgt hpe, hdisk⟩
    | true =>
      cases hmk : st.disk.metaOk tgt with
      | false =>
        exact ⟨1, _, walk_dir_create_dry now cwd 0 st src tgt hpe hmk, hdisk⟩
      | true =>
        exact ⟨1, _, walk_dir_skip now cwd true 0 st src tgt hpe hmk hdir,
          hdisk⟩
  | succ k ihk =>
    intro tgt src st hdisk hk
    cases hpe : st.disk.pathExists src with
    | false =>
      exact ⟨1, _, walk_dir_skipMissing now cwd true 0 st src tgt hpe, hdisk⟩
    | true =>
      cases hmk : st.disk.metaOk tgt with
      | false =>
        exact ⟨1, _, walk_dir_create_dry now cwd 0 st src tgt hpe hmk, hdisk⟩
      | true =>
        cases hdir : st.disk.isDir tgt with
        | false =>
          exact ⟨1, _, walk_dir_skip now cwd true 0 st src tgt hpe hmk hdir,
            hdisk⟩
        | true =>
          cases hrd : readDirErr st.disk src with
          | true =>
            exact ⟨1, _,
              walk_dir_rdErr now cwd true 0 st src tgt hpe hmk hdir hrd,
              hdisk⟩
          | false =>
            have hkids : ∀ (names : List String) (st' : WalkSt),
                st'.disk = dk →
                ∃ fuel r,
                  walk now cwd true fuel (.kids names src tgt) st' = some r ∧
                  r.2.disk = dk := by
              intro names
              induction names with
              | nil =>
                intro st' h'
                exact ⟨1, (none, st'),
                  walk_kids_nil now cwd true 0 st' src tgt, h'⟩
              | cons c cs ihc =>
                intro st' h'
                by_cases hg : c = ".git"
                · obtain ⟨f2, r2, hw2, hd2⟩ := ihc st' h'
                  refine ⟨f2 + 1, r2, ?_, hd2⟩
                  rw [walk_kids_cons, if_pos hg]
                  exact hw2
                · by_cases hcd : st'.disk.isDir (src.child c) = true
                  · obtain ⟨f1, r1, hw1, hd1⟩ :=
                      ihk (tgt.child c) (src.child c) st' h'
                        (by simp [RPath.child]; omega)
                    obtain ⟨e1, st1⟩ := r1
                    cases e1 with
                    | some e =>
                      refine ⟨f1 + 1, (some e, st1), ?_, hd1⟩
                      rw [walk_kids_cons, if_neg hg]
                      unfold childStep
                      rw [if_pos hcd, hw1]
                    | none =>
                      obtain ⟨f2, r2, hw2, hd2⟩ := ihc st1 hd1
                      refine ⟨max f1 f2 + 1, r2, ?_, hd2⟩
                      rw [walk_kids_cons, if_neg hg]
                      unfold childStep
                      rw [if_pos hcd]
                      rw [walk_mono now cwd true f1 (max f1 f2) _ _ _
                        (le_max_left _ _) hw1]
                      exact walk_mono now cwd true f2 (max f1 f2) _ _ _
                        (le_max_right _ _) hw2
                  · have hq := cisn_dry_unchanged now cwd st' (tgt.child c)
                      (src.child c)
                    rcases hqe : create_symlink_if_needed now cwd true st'
                        (tgt.child c) (src.child c) with ⟨qe, qst⟩
                    rw [hqe] at hq
                    have hq1 : qe = none := hq.1
                    subst hq1
                    obtain ⟨f2, r2, hw2, hd2⟩ :=
                      ihc qst (hq.2.1.trans h')
                    refine ⟨f2 + 1, r2, ?_, hd2⟩
                    rw [walk_kids_cons, if_neg hg]
                    unfold childStep
                    rw [if_neg hcd, hqe]
                    exact hw2
            obtain ⟨f2, r2, hw2, hd2⟩ := hkids (st.disk.children src) st hdisk
            refine ⟨f2 + 1, r2, ?_, hd2⟩
            rw [walk_dir_descend now cwd true f2 st src tgt hpe hmk hdir hrd]
            exact hw2

/-- C9 (amended): the recursive walk keeps no depth bound and no
visited-path set; what limits it is the target side — a step descends
only when the target path currently resolves to a directory.  In
simulate mode (the filesystem never changes underneath it), the walk
therefore terminates whenever directories stop resolving beyond some
depth on the target side, whatever cycles the *source* tree contains;
but when symlink cycles make target paths resolve to directories at
every depth (a cycle through both trees), the walk runs forever — see
the counterexample. -/
theorem claim9_termination_amended (now : Nat) (cwd : List String)
    (st : WalkSt) (src tgt : RPath) (n : Nat)
    (hb : TargetDepthBounded st.disk n) :
    WalkTerminates now cwd true (.dir src tgt) st := by
  obtain ⟨fuel, r, hw, _⟩ :=
    walk_dry_dir_terminates now cwd st.disk n hb n tgt src st rfl (by omega)
  exact ⟨fuel, by rw [hw]; simp⟩

/-- A filesystem with a symlink cycle in both trees: `/s` and `/t` are
directories, each containing a symlink `a` pointing back at its own
parent, so every path resolves to an existing directory and every
listing is `["a"]`. -/
def cycDisk : Disk where
  entry := fun p =>
    if p.comps.length ≤ 1 then .dir
    else .symlinkTo ⟨true, ["s"]⟩ true true
  children := fun _ => ["a"]
  readDirFails := fun _ => false
  symlinkFails := fun _ => false

theorem cycDisk_pathExists (p : RPath) : cycDisk.pathExists p = true := by
  show (match cycDisk.entry p with
    | .absent => false
    | .file => true
    | .dir => true
    | .symlinkTo _ e _ => e) = true
  show (match (if p.comps.length ≤ 1 then DiskEntry.dir
    else .symlinkTo ⟨true, ["s"]⟩ true true) with
    | .absent => false
    | .file => true
    | .dir => true
    | .symlinkTo _ e _ => e) = true
  by_cases h : p.comps.length ≤ 1 <;> simp [h]

theorem cycDisk_metaOk (p : RPath) : cycDisk.metaOk p = true := by
  show (match (if p.comps.length ≤ 1 then DiskEntry.dir
    else .symlinkTo ⟨true, ["s"]⟩ true true) with
    | DiskEntry.absent => false
    | _ => true) = true
  by_cases h : p.comps.length ≤ 1 <;> simp [h]

theorem cycDisk_isDir (p : RPath) : cycDisk.isDir p = true := by
  show (match (if p.comps.length ≤ 1 then DiskEntry.dir
    else .symlinkTo ⟨true, ["s"]⟩ true true) with
    | DiskEntry.dir => true
    | DiskEntry.symlinkTo _ _ i => i
    | _ => false) = true
  by_cases h : p.comps.length ≤ 1 <;> simp [h]

theorem cycDisk_readDirErr (p : RPath) : readDirErr cycDisk p = false := by
  unfold readDirErr
  rw [cycDisk_isDir]
  rfl

theorem cyc_walk_none :
    ∀ fuel : Nat,
      (∀ (src tgt : RPath) (st : WalkSt), st.disk = cycDisk →
        walk 0 [] true fuel (.dir src tgt) st = none) ∧
      (∀ (src tgt : RPath) (st : WalkSt), st.disk = cycDisk →
        walk 0 [] true fuel (.kids ["a"] src tgt) st = none) := by
  intro fuel
  induction fuel with
  | zero => exact ⟨fun _ _ _ _ => rfl, fun _ _ _ _ => rfl⟩
  | succ f ih =>
    constructor
    · intro src tgt st hdisk
      rw [walk_dir_descend 0 [] true f st src tgt
        (by rw [hdisk]; exact cycDisk_pathExists src)
        (by rw [hdisk]; exact cycDisk_metaOk tgt)
        (by rw [hdisk]; exact cycDisk_isDir tgt)
        (by rw [hdisk]; exact cycDisk_readDirErr src)]
      have hch : st.disk.children src = ["a"] := by rw [hdisk]; rfl
      rw [hch]
      exact ih.2 src tgt st hdisk
    · intro src tgt st hdisk
      rw [walk_kids_cons, if_neg (by decide : ¬("a" = ".git"))]
      unfold childStep
      rw [if_pos (by rw [hdisk]; exact cycDisk_isDir (src.child "a"))]
      rw [ih.1 (src.child "a") (tgt.child "a") st hdisk]

/-- Counterexample for C9 as stated: on the cyclic filesystem `cycDisk`
(a symlink cycle reachable in the source tree, mirrored on the target
side so that target paths resolve to directories at every depth) the
walk — which bounds no depth and records no visited paths — never
completes, for any amount of fuel, even in simulate mode. -/
theorem claim9_counterexample :
    ¬ WalkTerminates 0 [] true (.dir ⟨true, ["s"]⟩ ⟨true, ["t"]⟩)
        ⟨cycDisk, ⟨[]⟩, [], []⟩ := by
  rintro ⟨fuel, hf⟩
  exact hf ((cyc_walk_none fuel).1 _ _ _ rfl)

/-- A depth-bounded filesystem for the C9 witness: paths of up to one
component are directories, everything deeper is absent, and every
listing is `["a"]` (so the source side alone would recurse forever if
the walk did not stop at non-directory targets). -/
def d9W : Disk where
  entry := fun p => if p.comps.length ≤ 1 then .dir else .absent
  children := fun _ => ["a"]
  readDirFails := fun _ => false
  symlinkFails := fun _ => false

/-- Witness for C9 (amended): on `d9W`, whose directories stop resolving
at depth 2, the dry-run walk terminates. -/
theorem claim9_witness :
    WalkTerminates 0 [] true (.dir ⟨true, ["s"]⟩ ⟨true, ["t"]⟩)
      ⟨d9W, ⟨[]⟩, [], []⟩ :=
  claim9_termination_amended 0 [] ⟨d9W, ⟨[]⟩, [], []⟩ ⟨true, ["s"]⟩
    ⟨true, ["t"]⟩ 2
    (by
      intro p hp
      have he : d9W.entry p = DiskEntry.absent := by
        show (if p.comps.length ≤ 1 then DiskEntry.dir
          else DiskEntry.absent) = DiskEntry.absent
        rw [if_neg (by omega)]
      show (match d9W.entry p with
        | DiskEntry.dir => true
        | DiskEntry.symlinkTo _ _ i => i
        | _ => false) = false
      rw [he])

end Dotme
